import Mathlib

/-!
# Verification of the Oupdate live-call poller (src/index.js)

Shallow embedding of the poller's pure logic over `List Char` strings:

* `maskNumber`, `extractCountryFromTermination` — the string helpers;
* `trim` — JavaScript `String.prototype.trim` (common whitespace set);
* `splitOnChar` / `joinWith` — JavaScript `String.split(' ')` and
  `Array.join(' ')` semantics (empty components are preserved);
* the per-row dispatch of `main`'s monitoring loop (dedup set, branch on
  play button / FAILED status), with notification and pipeline dispatches
  recorded as events;
* `processCallWorker` — the audio pipeline, with each observable side
  effect recorded as an event and each fallible step given an outcome;
* `loginToDashboard` — the retry loop, tracking browser opens/closes.

JavaScript strings are modelled as `List Char`; the regular-expression
match on a play button's onclick attribute is abstracted as an
`Option (did × uuid)` field of the parsed row, since no claim depends on
the regex internals, only on whether a match was produced.
-/

/-- JavaScript whitespace for `trim` (the characters that occur in this
code base; the full JS set also has exotic Unicode spaces). -/
def isWs (c : Char) : Bool :=
  c = ' ' || c = '\t' || c = '\n' || c = '\r'

/-- JavaScript `String.prototype.trim`: drop leading and trailing
whitespace. -/
def trim (s : List Char) : List Char :=
  (s.dropWhile isWs).rdropWhile isWs

/-- JavaScript `str.split(sep)` for a one-character separator, generalised
to a Boolean separator test.  Always returns a non-empty list; empty
components between adjacent separators are preserved (`"".split(' ')`
gives `[""]`). -/
def splitOnPred (p : Char → Bool) : List Char → List (List Char)
  | [] => [[]]
  | a :: r =>
    match splitOnPred p r with
    | [] => if p a then [[], []] else [[a]]
    | t :: ts => if p a then [] :: t :: ts else (a :: t) :: ts

/-- JavaScript `str.split(c)` for a single character `c`. -/
def splitOnChar (c : Char) (s : List Char) : List (List Char) :=
  splitOnPred (fun a => a = c) s

/-- JavaScript `Array.prototype.join(sep)`. -/
def joinWith (sep : List Char) : List (List Char) → List Char
  | [] => []
  | [x] => x
  | x :: y :: xs => x ++ sep ++ joinWith sep (y :: xs)

/-- src/index.js line 51: `maskNumber`.  `String(number).trim()`, then
`substring(0,3) + "***" + substring(len-4)` when longer than 7. -/
def maskNumber (number : List Char) : List Char :=
  let numStr := trim number
  if numStr.length > 7 then
    numStr.take 3 ++ ['*', '*', '*'] ++ numStr.drop (numStr.length - 4)
  else
    numStr

/-- src/index.js line 62: the loop's break test — the token uppercases to
`MOBILE` or `FIXED`, or contains a decimal digit (`/\d/`). -/
def isTerminator (part : List Char) : Bool :=
  part.map Char.toUpper = "MOBILE".toList
    || part.map Char.toUpper = "FIXED".toList
    || part.any Char.isDigit

/-- The `for … break` loop of `extractCountryFromTermination`: collect
tokens until the first terminating one. -/
def collectParts : List (List Char) → List (List Char)
  | [] => []
  | p :: rest => if isTerminator p then [] else p :: collectParts rest

/-- src/index.js line 58: `extractCountryFromTermination`.  Splits on the
single space character, collects leading non-terminating tokens, joins
them with `' '`; when none were collected falls back to the input text
itself. -/
def extractCountryFromTermination (text : List Char) : List Char :=
  let parts := splitOnChar ' ' text
  let countryParts := collectParts parts
  if countryParts.length > 0 then joinWith [' '] countryParts else text

/-- Whitespace-separated tokens of a string (no empty tokens); used only
to state the spec's wording of the country heuristic for comparison. -/
def wsTokens (s : List Char) : List (List Char) :=
  (splitOnPred isWs s).filter (fun t => !t.isEmpty)

/-- The country heuristic as the spec (§4.2) words it, for comparison with
the source function: leading *whitespace*-separated tokens until a
terminating one, joined by a single space, with fallback to the whole
*trimmed* text. -/
def extractCountryClaimed (s : List Char) : List Char :=
  let toks := wsTokens s
  let accepted := toks.takeWhile (fun t => !isTerminator t)
  if accepted.isEmpty then trim s else joinWith [' '] accepted

-- ============================================================
-- Basic facts about the string infrastructure
-- ============================================================

theorem splitOnPred_ne_nil (p : Char → Bool) (s : List Char) :
    splitOnPred p s ≠ [] := by
  induction s with
  | nil => simp [splitOnPred]
  | cons a r ih =>
    rcases h : splitOnPred p r with _ | ⟨t, ts⟩
    · exact absurd h ih
    · simp only [splitOnPred, h]
      split <;> simp

theorem joinWith_cons_cons (sep : List Char) (a t : List Char)
    (ts : List (List Char)) :
    joinWith sep ((a ++ t) :: ts) = a ++ joinWith sep (t :: ts) := by
  cases ts with
  | nil => simp [joinWith]
  | cons u us => simp [joinWith]

/-- Rejoining the split with the separator recovers the string
(JS: `s.split(c).join(c) === s`). -/
theorem joinWith_splitOnChar (c : Char) (s : List Char) :
    joinWith [c] (splitOnChar c s) = s := by
  induction s with
  | nil => simp [splitOnChar, splitOnPred, joinWith]
  | cons a r ih =>
    simp only [splitOnChar] at *
    rcases h : splitOnPred (fun a => decide (a = c)) r with _ | ⟨t, ts⟩
    · exact absurd h (splitOnPred_ne_nil _ r)
    · rw [h] at ih
      by_cases hac : a = c
      · subst hac
        simp only [splitOnPred, h]
        rw [if_pos (by simp), joinWith]
        simpa using ih
      · simp only [splitOnPred, h]
        rw [if_neg (by simp [hac]), show (a :: t) = [a] ++ t from rfl,
          joinWith_cons_cons]
        simpa using ih

theorem collectParts_eq_takeWhile (l : List (List Char)) :
    collectParts l = l.takeWhile (fun p => !isTerminator p) := by
  induction l with
  | nil => rfl
  | cons p rest ih =>
    by_cases h : isTerminator p
    · simp [collectParts, List.takeWhile_cons, h]
    · simp [collectParts, List.takeWhile_cons, h, ih]

theorem collectParts_of_no_terminator (l : List (List Char))
    (h : ∀ p ∈ l, isTerminator p = false) : collectParts l = l := by
  induction l with
  | nil => rfl
  | cons p rest ih =>
    have hp : isTerminator p = false := h p (by simp)
    simp only [collectParts, hp, Bool.false_eq_true, if_false]
    rw [ih fun q hq => h q (by simp [hq])]

-- ============================================================
-- Facts about trim
-- ============================================================

theorem head?_dropWhile_not_ws (p : Char → Bool) (l : List Char) (c : Char)
    (h : (l.dropWhile p).head? = some c) : p c = false := by
  have hne : l.dropWhile p ≠ [] := by
    intro h0
    rw [h0] at h
    cases h
  have h2 : (l.dropWhile p).head hne = c := by
    rw [List.head?_eq_head hne] at h
    exact Option.some.inj h
  rw [← h2]
  exact List.head_dropWhile_not p l hne

theorem getLast?_rdropWhile_not_ws (p : Char → Bool) (l : List Char) (c : Char)
    (h : (l.rdropWhile p).getLast? = some c) : p c = false := by
  have hne : l.rdropWhile p ≠ [] := by
    intro h0
    rw [h0] at h
    cases h
  have h2 : (l.rdropWhile p).getLast hne = c := by
    rw [List.getLast?_eq_getLast _ hne] at h
    exact Option.some.inj h
  have h3 := List.rdropWhile_last_not p l hne
  rw [h2] at h3
  exact Bool.not_eq_true _ |>.mp h3

/-- The first character of a trimmed string is not whitespace. -/
theorem trim_head?_not_ws (s : List Char) (c : Char)
    (h : (trim s).head? = some c) : isWs c = false := by
  obtain ⟨t, ht⟩ := List.rdropWhile_prefix isWs (s.dropWhile isWs)
  have hA : (s.dropWhile isWs).head? = some c := by
    rw [← ht, List.head?_append]
    unfold trim at h
    rw [h]
    rfl
  exact head?_dropWhile_not_ws isWs s c hA

/-- The last character of a trimmed string is not whitespace. -/
theorem trim_getLast?_not_ws (s : List Char) (c : Char)
    (h : (trim s).getLast? = some c) : isWs c = false :=
  getLast?_rdropWhile_not_ws isWs (s.dropWhile isWs) c h

/-- Trimming is idempotent. -/
theorem trim_trim (s : List Char) : trim (trim s) = trim s := by
  have h1 : (trim s).dropWhile isWs = trim s := by
    cases htr : trim s with
    | nil => rfl
    | cons a r =>
      have ha : isWs a = false := by
        apply trim_head?_not_ws s
        rw [htr]
        rfl
      rw [List.dropWhile_cons, ha]
      simp
  show ((trim s).dropWhile isWs).rdropWhile isWs = trim s
  rw [h1]
  exact List.rdropWhile_idempotent isWs _

-- ============================================================
-- Facts about maskNumber
-- ============================================================

theorem maskNumber_eq_maskNumber_trim (x : List Char) :
    maskNumber x = maskNumber (trim x) := by
  simp only [maskNumber, trim_trim]

theorem maskNumber_of_short (s : List Char) (h : (trim s).length ≤ 7) :
    maskNumber s = trim s := by
  simp only [maskNumber]
  rw [if_neg (by omega)]

theorem maskNumber_of_long (s : List Char) (h : 7 < (trim s).length) :
    maskNumber s =
      (trim s).take 3 ++ ['*', '*', '*']
        ++ (trim s).drop ((trim s).length - 4) := by
  simp only [maskNumber]
  rw [if_pos (by omega)]

theorem maskNumber_head?_not_ws (x : List Char) (c : Char)
    (h : (maskNumber x).head? = some c) : isWs c = false := by
  by_cases hl : (trim x).length ≤ 7
  · rw [maskNumber_of_short x hl] at h
    exact trim_head?_not_ws x c h
  · rw [maskNumber_of_long x (by omega)] at h
    have hne : trim x ≠ [] := by
      intro h0
      rw [h0] at hl
      simp at hl
    rw [List.append_assoc, List.head?_append, List.head?_take] at h
    rw [if_neg (by omega)] at h
    rw [List.head?_eq_head hne] at h
    have : (trim x).head hne = c := by
      apply Option.some.inj
      simpa using h
    apply trim_head?_not_ws x
    rw [List.head?_eq_head hne, this]

theorem maskNumber_getLast?_not_ws (x : List Char) (c : Char)
    (h : (maskNumber x).getLast? = some c) : isWs c = false := by
  by_cases hl : (trim x).length ≤ 7
  · rw [maskNumber_of_short x hl] at h
    exact trim_getLast?_not_ws x c h
  · rw [maskNumber_of_long x (by omega)] at h
    have hlast : ((trim x).drop ((trim x).length - 4)).getLast? =
        (trim x).getLast? := by
      show ((trim x).rtake 4).getLast? = (trim x).getLast?
      rw [List.rtake_eq_reverse_take_reverse, List.getLast?_reverse,
        List.head?_take, if_neg (by omega), List.head?_reverse]
    rw [List.getLast?_append, hlast] at h
    have hne : trim x ≠ [] := by
      intro h0
      rw [h0] at hl
      simp at hl
    apply trim_getLast?_not_ws x
    rw [List.getLast?_eq_getLast _ hne] at h ⊢
    simpa using h

-- ============================================================
-- The monitoring loop of `main` (src/index.js lines 360-409)
-- ============================================================

/-- The kinds of dispatch the poller performs for a row: the instant
"detected" notification (`sendInstantNotification`), the scheduled audio
pipeline (`setTimeout(... processCallWorker ...)`), and the failed-call
notification (`sendFailedCallNotification`). -/
inductive EvKind
  | detected
  | scheduled
  | failedNotif
deriving DecidableEq, Repr

/-- A dispatch event, tagged with the cli number it concerns. -/
structure Event where
  kind : EvKind
  cli : List Char
deriving DecidableEq, Repr

/-- A table row as the loop reads it: the `td` cell texts, whether a
`button[onclick*='Play']` was found, and the result of matching the
button's onclick attribute against the
`Play('did', 'uuid')` regular expression (abstracted: `none` when the
match fails, `some (did, uuid)` when it succeeds). -/
structure RawRow where
  cols : List (List Char)
  hasPlayButton : Bool
  playMatch : Option (List Char × List Char)

/-- The dedup store check: `processedCalls.has(callId)`. -/
def seen (s : List (List Char)) (c : List Char) : Bool :=
  decide (c ∈ s)

/-- The dedup store insertion: `processedCalls.add(callId)`. -/
def mark (s : List (List Char)) (c : List Char) : List (List Char) :=
  c :: s

/-- `cliNumber` of a row: `$(columns[2]).text().trim()`. -/
def cliOf (r : RawRow) : List Char :=
  trim (r.cols.getD 2 [])

/-- `callStatus` of a row:
`$(columns[columns.length-1]).text().trim().toUpperCase()`. -/
def statusOf (r : RawRow) : List Char :=
  (trim (r.cols.getD (r.cols.length - 1) [])).map Char.toUpper


/-- The dispatch block of the row callback (src/index.js lines 382-398),
run only for a not-yet-seen row with more than 2 columns:
`if (playButton.length && callStatus !== "FAILED") { if (matches) {
notify then schedule } } else if (callStatus === "FAILED") { failed
notification }`. -/
def rowEvents (r : RawRow) : List Event :=
  if r.hasPlayButton && !(statusOf r = "FAILED".toList : Bool) then
    if r.playMatch.isSome then
      [⟨.detected, cliOf r⟩, ⟨.scheduled, cliOf r⟩]
    else []
  else if statusOf r = "FAILED".toList then
    [⟨.failedNotif, cliOf r⟩]
  else []

/-- One iteration of the row callback (src/index.js lines 366-399):
skip rows with at most 2 columns; skip rows whose cli number is already
in the dedup store; otherwise insert the cli number first
(`processedCalls.add`) and then dispatch (`rowEvents`).  Returns the new
store and the dispatched events. -/
def handleRow (processed : List (List Char)) (r : RawRow) :
    List (List Char) × List Event :=
  if r.cols.length > 2 then
    if seen processed (cliOf r) then (processed, [])
    else (mark processed (cliOf r), rowEvents r)
  else (processed, [])

/-- A sequence of rows processed in order, threading the dedup store.
Each row carries a truncation index `t`: only the first `t` of its
dispatch events actually happen, modelling a dispatch that raises an
error part-way (the store insertion has already happened by then). -/
def runRows :
    List (List Char) → List (RawRow × Nat) → List (List Char) × List Event
  | s, [] => (s, [])
  | s, (r, t) :: rest =>
    let res := handleRow s r
    let rec' := runRows res.1 rest
    (rec'.1, res.2.take t ++ rec'.2)

/-- A whole run: a list of poll ticks, each a list of rows, processed in
order with the store carried across ticks (the `while (true)` loop). -/
def runTicks :
    List (List Char) → List (List (RawRow × Nat)) → List (List Char) × List Event
  | s, [] => (s, [])
  | s, tick :: rest =>
    let res := runRows s tick
    let rec' := runTicks res.1 rest
    (rec'.1, res.2 ++ rec'.2)

/-- Number of events of kind `k` for cli number `c` in a trace. -/
def countEv (k : EvKind) (c : List Char) (evts : List Event) : Nat :=
  (evts.filter (fun e => e.kind = k && e.cli = c)).length

-- ============================================================
-- Dedup invariants
-- ============================================================

theorem countEv_append (k : EvKind) (c : List Char) (l₁ l₂ : List Event) :
    countEv k c (l₁ ++ l₂) = countEv k c l₁ + countEv k c l₂ := by
  simp [countEv, List.filter_append]

theorem countEv_take_le (k : EvKind) (c : List Char) (l : List Event)
    (n : Nat) : countEv k c (l.take n) ≤ countEv k c l :=
  List.Sublist.length_le (List.Sublist.filter _ (List.take_sublist n l))

theorem countEv_eq_zero_of_cli_ne (k : EvKind) (c : List Char)
    (l : List Event) (h : ∀ e ∈ l, e.cli ≠ c) : countEv k c l = 0 := by
  simp only [countEv, List.length_eq_zero, List.filter_eq_nil_iff]
  intro e he
  simp [h e he]

theorem rowEvents_cli (r : RawRow) (e : Event) (h : e ∈ rowEvents r) :
    e.cli = cliOf r := by
  unfold rowEvents at h
  split at h
  · split at h
    · simp only [List.mem_cons, List.not_mem_nil, or_false] at h
      rcases h with rfl | rfl <;> rfl
    · cases h
  · split at h
    · simp only [List.mem_cons, List.not_mem_nil, or_false] at h
      subst h
      rfl
    · cases h

theorem rowEvents_countEv_le_one (r : RawRow) (k : EvKind) (c : List Char) :
    countEv k c (rowEvents r) ≤ 1 := by
  unfold rowEvents
  split
  · split
    · cases k <;> simp [countEv, List.filter] <;> split <;> simp
    · simp [countEv]
  · split
    · cases k <;> simp [countEv, List.filter] <;> split <;> simp
    · simp [countEv]

theorem handleRow_mem_fst (s : List (List Char)) (r : RawRow)
    (a : List Char) (h : a ∈ s) : a ∈ (handleRow s r).1 := by
  unfold handleRow
  split
  · split
    · exact h
    · exact List.mem_cons_of_mem _ h
  · exact h

theorem handleRow_cli (s : List (List Char)) (r : RawRow)
    (e : Event) (h : e ∈ (handleRow s r).2) : e.cli = cliOf r := by
  unfold handleRow at h
  split at h
  · split at h
    · cases h
    · exact rowEvents_cli r e h
  · cases h

theorem handleRow_seen (s : List (List Char)) (r : RawRow)
    (h : seen s (cliOf r) = true) : (handleRow s r).2 = [] := by
  unfold handleRow
  split
  · rfl
  · simp_all

theorem handleRow_countEv_le_one (s : List (List Char)) (r : RawRow)
    (k : EvKind) (c : List Char) : countEv k c (handleRow s r).2 ≤ 1 := by
  unfold handleRow
  split
  · split
    · simp [countEv]
    · exact rowEvents_countEv_le_one r k c
  · simp [countEv]

theorem handleRow_fst_of_unseen (s : List (List Char)) (r : RawRow)
    (hc : r.cols.length > 2) (h : seen s (cliOf r) = false) :
    (handleRow s r).1 = mark s (cliOf r) := by
  unfold handleRow
  rw [if_pos hc, if_neg (by simp [h])]

theorem handleRow_marked (s : List (List Char)) (r : RawRow)
    (e : Event) (h : e ∈ (handleRow s r).2) : cliOf r ∈ (handleRow s r).1 := by
  unfold handleRow at *
  split at h
  · split at h
    · cases h
    · simp_all [mark]
  · cases h

theorem runRows_mem_fst (s : List (List Char)) (rows : List (RawRow × Nat))
    (a : List Char) (h : a ∈ s) : a ∈ (runRows s rows).1 := by
  induction rows generalizing s with
  | nil => exact h
  | cons rt rest ih =>
    obtain ⟨r, t⟩ := rt
    exact ih _ (handleRow_mem_fst s r a h)

theorem runRows_countEv_of_seen (s : List (List Char))
    (rows : List (RawRow × Nat)) (c : List Char) (k : EvKind)
    (h : c ∈ s) : countEv k c (runRows s rows).2 = 0 := by
  induction rows generalizing s with
  | nil => simp [runRows, countEv]
  | cons rt rest ih =>
    obtain ⟨r, t⟩ := rt
    show countEv k c ((handleRow s r).2.take t ++ (runRows (handleRow s r).1 rest).2) = 0
    rw [countEv_append]
    have h1 : countEv k c ((handleRow s r).2.take t) = 0 := by
      by_cases hcr : cliOf r = c
      · have : (handleRow s r).2 = [] := by
          apply handleRow_seen
          simp [seen, hcr ▸ h]
        simp [this, countEv]
      · have hz : countEv k c (handleRow s r).2 = 0 :=
          countEv_eq_zero_of_cli_ne k c _ fun e he => by
            rw [handleRow_cli s r e he]; exact hcr
        have := countEv_take_le k c (handleRow s r).2 t
        omega
    rw [h1, ih _ (handleRow_mem_fst s r c h)]

theorem runRows_marked (s : List (List Char)) (rows : List (RawRow × Nat))
    (c : List Char) (k : EvKind)
    (h : 1 ≤ countEv k c (runRows s rows).2) : c ∈ (runRows s rows).1 := by
  induction rows generalizing s with
  | nil => simp [runRows, countEv] at h
  | cons rt rest ih =>
    obtain ⟨r, t⟩ := rt
    rw [show (runRows s ((r, t) :: rest)).2
        = (handleRow s r).2.take t ++ (runRows (handleRow s r).1 rest).2
      from rfl, countEv_append] at h
    by_cases h2 : 1 ≤ countEv k c (runRows (handleRow s r).1 rest).2
    · exact ih _ h2
    · have h1 : 1 ≤ countEv k c ((handleRow s r).2.take t) := by omega
      have : ∃ e ∈ (handleRow s r).2.take t,
          (e.kind = k && e.cli = c : Bool) = true := by
        by_contra hno
        push_neg at hno
        have : countEv k c ((handleRow s r).2.take t) = 0 := by
          simp only [countEv, List.length_eq_zero, List.filter_eq_nil_iff]
          exact hno
        omega
      obtain ⟨e, he, hek⟩ := this
      have hmem : e ∈ (handleRow s r).2 := List.mem_of_mem_take he
      have hcli : cliOf r = c := by
        rw [← handleRow_cli s r e hmem]
        simpa using (Bool.and_eq_true _ _ |>.mp hek).2
      have : cliOf r ∈ (handleRow s r).1 := handleRow_marked s r e hmem
      rw [hcli] at this
      exact runRows_mem_fst _ rest c this

theorem runRows_countEv_le_one (s : List (List Char))
    (rows : List (RawRow × Nat)) (c : List Char) (k : EvKind) :
    countEv k c (runRows s rows).2 ≤ 1 := by
  induction rows generalizing s with
  | nil => simp [runRows, countEv]
  | cons rt rest ih =>
    obtain ⟨r, t⟩ := rt
    rw [show (runRows s ((r, t) :: rest)).2
        = (handleRow s r).2.take t ++ (runRows (handleRow s r).1 rest).2
      from rfl, countEv_append]
    by_cases hcr : cliOf r = c
    · by_cases hs : seen s (cliOf r) = true
      · have : (handleRow s r).2 = [] := handleRow_seen s r hs
        rw [this]
        simpa [countEv] using ih (handleRow s r).1
      · by_cases hc2 : r.cols.length > 2
        · have hfst : (handleRow s r).1 = mark s (cliOf r) :=
            handleRow_fst_of_unseen s r hc2 (by simpa using hs)
          have hrest : countEv k c (runRows (handleRow s r).1 rest).2 = 0 := by
            apply runRows_countEv_of_seen
            rw [hfst, hcr]
            exact List.mem_cons_self _ _
          have hrow : countEv k c ((handleRow s r).2.take t) ≤ 1 := by
            have := countEv_take_le k c (handleRow s r).2 t
            have := handleRow_countEv_le_one s r k c
            omega
          omega
        · have : handleRow s r = (s, []) := by
            unfold handleRow
            rw [if_neg hc2]
          rw [this]
          simpa [countEv] using ih s
    · have hrow : countEv k c ((handleRow s r).2.take t) = 0 := by
        apply countEv_eq_zero_of_cli_ne
        intro e he
        rw [handleRow_cli s r e (List.mem_of_mem_take he)]
        exact hcr
      rw [hrow]
      simpa using ih (handleRow s r).1

theorem runTicks_mem_fst (s : List (List Char))
    (ticks : List (List (RawRow × Nat))) (a : List Char) (h : a ∈ s) :
    a ∈ (runTicks s ticks).1 := by
  induction ticks generalizing s with
  | nil => exact h
  | cons tick rest ih => exact ih _ (runRows_mem_fst s tick a h)

theorem runTicks_countEv_of_seen (s : List (List Char))
    (ticks : List (List (RawRow × Nat))) (c : List Char) (k : EvKind)
    (h : c ∈ s) : countEv k c (runTicks s ticks).2 = 0 := by
  induction ticks generalizing s with
  | nil => simp [runTicks, countEv]
  | cons tick rest ih =>
    show countEv k c ((runRows s tick).2 ++ (runTicks (runRows s tick).1 rest).2) = 0
    rw [countEv_append, runRows_countEv_of_seen s tick c k h,
      ih _ (runRows_mem_fst s tick c h)]

/-- Per-kind at-most-once dispatch over a whole run, from any starting
store. -/
theorem runTicks_countEv_le_one (s : List (List Char))
    (ticks : List (List (RawRow × Nat))) (c : List Char) (k : EvKind) :
    countEv k c (runTicks s ticks).2 ≤ 1 := by
  induction ticks generalizing s with
  | nil => simp [runTicks, countEv]
  | cons tick rest ih =>
    rw [show (runTicks s (tick :: rest)).2
        = (runRows s tick).2 ++ (runTicks (runRows s tick).1 rest).2
      from rfl, countEv_append]
    by_cases h1 : 1 ≤ countEv k c (runRows s tick).2
    · have hmark : c ∈ (runRows s tick).1 := runRows_marked s tick c k h1
      have hrest : countEv k c (runTicks (runRows s tick).1 rest).2 = 0 :=
        runTicks_countEv_of_seen _ rest c k hmark
      have := runRows_countEv_le_one s tick c k
      omega
    · have := ih (runRows s tick).1
      omega

-- ============================================================
-- The audio pipeline `processCallWorker` (src/index.js lines 268-329)
-- ============================================================

/-- Observable side effects of one `processCallWorker` run. -/
inductive PEvent
  | fetchAttempt
  | writeRaw
  | writeMp3
  | sendAudio (ok : Bool)
  | retractMsg
  | deleteRaw
  | deleteMp3
  | logError
deriving DecidableEq, Repr

/-- The outcome of each fallible step of one `processCallWorker` run:
whether the `axios.get` of the recording succeeds (a failure throws),
whether the ffmpeg transcode succeeds (a failure rejects the awaited
promise, i.e. throws), whether `sendAudioToTelegramGroup` succeeds (its
failure is caught inside the helper, which returns `false` and never
throws — src/index.js lines 100-107), and whether
`notificationMessageId` is non-null.  `deleteTelegramMessage` likewise
catches its own errors (lines 72-82), and the `fs.unlinkSync` calls
operate on files this run just created. -/
structure PipelineOutcome where
  downloadOk : Bool
  transcodeOk : Bool
  sendOk : Bool
  hasNotifId : Bool

/-- src/index.js lines 268-329: the body of `processCallWorker` as the
trace of its observable effects.  The whole body is one `try`/`catch`
whose `catch` only logs, so a throw inside (download or transcode
failure) aborts the remaining steps of this call and is never rethrown
to the caller; `sendAudioToTelegramGroup` and `deleteTelegramMessage`
cannot throw, so the retraction and the two `fs.unlinkSync` calls run
whenever the transcode completed. -/
def processCallWorker (o : PipelineOutcome) : List PEvent :=
  if !o.downloadOk then
    [.fetchAttempt, .logError]
  else if !o.transcodeOk then
    [.fetchAttempt, .writeRaw, .logError]
  else
    [.fetchAttempt, .writeRaw, .writeMp3, .sendAudio o.sendOk]
      ++ (if o.hasNotifId then [.retractMsg] else [])
      ++ [.deleteRaw, .deleteMp3]

-- ============================================================
-- The login retry loop `loginToDashboard` (src/index.js lines 169-263)
-- ============================================================

/-- The outcome of one login attempt: `puppeteer.launch` itself throws
(no browser created); some later step throws — fields or submit button
not found, navigation timeout, or no dashboard marker (a browser was
created and is closed in the `catch`); or full success (the browser is
returned inside the session). -/
inductive AttemptOutcome
  | launchFail
  | failAfterLaunch
  | success
deriving DecidableEq, Repr

/-- The `while (attempt < maxRetries)` loop of `loginToDashboard`,
counting browser launches and closes.  `fuel` is `maxRetries - attempt`;
the n-th list entry is the outcome of the n-th attempt.  On a failure
the `catch` closes the browser if one was created and retries; when the
retries are exhausted it returns null (`none`). -/
def loginAux : Nat → List AttemptOutcome → Nat × Nat → Option Unit × Nat × Nat
  | 0, _, oc => (none, oc.1, oc.2)
  | fuel + 1, outs, (opens, closes) =>
    match outs.headD .failAfterLaunch with
    | .launchFail => loginAux fuel outs.tail (opens, closes)
    | .failAfterLaunch => loginAux fuel outs.tail (opens + 1, closes + 1)
    | .success => (some (), opens + 1, closes)

/-- src/index.js line 169: `loginToDashboard` with the given
`maxRetries`, starting with no browser opened or closed. -/
def loginToDashboard (maxRetries : Nat) (outs : List AttemptOutcome) :
    Option Unit × Nat × Nat :=
  loginAux maxRetries outs (0, 0)

theorem loginAux_all_fail (fuel : Nat) (outs : List AttemptOutcome)
    (opens closes : Nat) (h : ∀ x ∈ outs, x ≠ AttemptOutcome.success) :
    (loginAux fuel outs (opens, closes)).1 = none ∧
      ((loginAux fuel outs (opens, closes)).2.1 =
          (loginAux fuel outs (opens, closes)).2.2 ↔ opens = closes) := by
  induction fuel generalizing outs opens closes with
  | zero => simp [loginAux]
  | succ fuel ih =>
    have hhead : outs.headD .failAfterLaunch ≠ AttemptOutcome.success := by
      cases outs with
      | nil => simp
      | cons a rest => exact h a (by simp)
    have htail : ∀ x ∈ outs.tail, x ≠ AttemptOutcome.success := fun x hx =>
      h x (List.mem_of_mem_tail hx)
    cases hout : outs.headD .failAfterLaunch with
    | launchFail =>
      simp only [loginAux, hout]
      exact ih outs.tail opens closes htail
    | failAfterLaunch =>
      simp only [loginAux, hout]
      have := ih outs.tail (opens + 1) (closes + 1) htail
      refine ⟨this.1, ?_⟩
      rw [this.2]
      omega
    | success => exact absurd hout hhead

theorem splitOnChar_ne_nil (c : Char) (s : List Char) :
    splitOnChar c s ≠ [] :=
  splitOnPred_ne_nil _ s

-- ============================================================
-- Concrete rows used by the witnesses
-- ============================================================

/-- A parsed row with a play button whose onclick matched. -/
def rowPlay : RawRow :=
  ⟨["GERMANY".toList, "4912".toList, "0771".toList, "ANSWERED".toList],
    true, some ("d1".toList, "u1".toList)⟩

/-- A parsed row with a play button whose onclick did not match. -/
def rowNoMatch : RawRow :=
  ⟨["GERMANY".toList, "4912".toList, "0772".toList, "ANSWERED".toList],
    true, none⟩

/-- A parsed row with a play button and a (mixed-case, padded) FAILED
status. -/
def rowFailedPlay : RawRow :=
  ⟨["GERMANY".toList, "4912".toList, "0773".toList, " fAiLeD ".toList],
    true, some ("d1".toList, "u1".toList)⟩

-- ============================================================
-- The claims
-- ============================================================

/-- Claim C1: once a cli_number is marked in the dedup store every later
seen-check returns true (conjuncts 1 and 2: `mark` then `seen` is true,
and the store only grows across a run), the poller dispatches each
cli_number at most once per run — at most one detected notification, one
scheduled pipeline, one failed notification — regardless of how many
poll ticks its row appears in and even if a dispatch raises after
emitting only a prefix of its events (conjunct 3, with arbitrary
per-row truncations), and the store insertion happens before any
dispatch (conjunct 4: the updated store is `mark …` whatever the
dispatch branch does). -/
theorem c1_dedup_at_most_once_dispatch :
    (∀ (s : List (List Char)) (c : List Char), seen (mark s c) c = true) ∧
    (∀ (s0 : List (List Char)) (c : List Char)
        (ticks : List (List (RawRow × Nat))),
        seen s0 c = true → seen (runTicks s0 ticks).1 c = true) ∧
    (∀ (ticks : List (List (RawRow × Nat))) (c : List Char) (k : EvKind),
        countEv k c (runTicks [] ticks).2 ≤ 1) ∧
    (∀ (s : List (List Char)) (r : RawRow),
        r.cols.length > 2 → seen s (cliOf r) = false →
        (handleRow s r).1 = mark s (cliOf r)) := by
  refine ⟨?_, ?_, ?_, ?_⟩
  · intro s c
    simp [seen, mark]
  · intro s0 c ticks h
    have : c ∈ s0 := by simpa [seen] using h
    simpa [seen] using runTicks_mem_fst s0 ticks c this
  · intro ticks c k
    exact runTicks_countEv_le_one [] ticks c k
  · intro s r h1 h2
    exact handleRow_fst_of_unseen s r h1 h2

/-- Witness for C1 at concrete inputs: the same row seen in two
consecutive ticks, with events truncated at arbitrary points. -/
theorem c1_dedup_witness :
    seen (mark [] "0771".toList) "0771".toList = true ∧
    seen (runTicks ["0771".toList] [[(rowPlay, 2)]]).1 "0771".toList = true ∧
    countEv .detected "0771".toList
      (runTicks [] [[(rowPlay, 1)], [(rowPlay, 2)]]).2 ≤ 1 ∧
    (handleRow [] rowPlay).1 = mark [] (cliOf rowPlay) :=
  ⟨c1_dedup_at_most_once_dispatch.1 [] _,
    c1_dedup_at_most_once_dispatch.2.1 ["0771".toList] "0771".toList
      [[(rowPlay, 2)]] (by decide),
    c1_dedup_at_most_once_dispatch.2.2.1 [[(rowPlay, 1)], [(rowPlay, 2)]]
      "0771".toList .detected,
    c1_dedup_at_most_once_dispatch.2.2.2 [] rowPlay (by decide) (by decide)⟩

/-- Claim C2: a not-yet-seen row with more than 2 columns, a play
control, a non-FAILED status and a failing onclick match produces no
events at all — no detected notification, no scheduled pipeline — but
its cli_number is still marked seen. -/
theorem c2_no_match_no_dispatch (s : List (List Char)) (r : RawRow)
    (h1 : r.cols.length > 2) (h2 : seen s (cliOf r) = false)
    (h3 : r.hasPlayButton = true) (h4 : statusOf r ≠ "FAILED".toList)
    (h5 : r.playMatch = none) :
    handleRow s r = (mark s (cliOf r), []) := by
  unfold handleRow
  rw [if_pos h1, if_neg (by simp [h2])]
  unfold rowEvents
  rw [if_pos (by simp only [h3, Bool.true_and, Bool.not_eq_eq_eq_not,
    Bool.not_true, decide_eq_false_iff_not]; simpa using h4),
    if_neg (by simp [h5])]

/-- Witness for C2 at a concrete row. -/
theorem c2_no_match_witness :
    handleRow [] rowNoMatch = (mark [] (cliOf rowNoMatch), []) :=
  c2_no_match_no_dispatch [] rowNoMatch (by decide) (by decide) (by decide)
    (by decide) (by decide)

/-- Claim C3: for a row whose status text equals "FAILED"
case-insensitively after trimming (that is, `statusOf r = "FAILED"`),
every event the poller ever emits for that row is the failed-call
notification — never a detected notification or a scheduled audio
pipeline, regardless of the play control — and when the row is unseen
and well-formed exactly the failed-call notification is sent. -/
theorem c3_failed_no_audio (s : List (List Char)) (r : RawRow)
    (h : statusOf r = "FAILED".toList) :
    (∀ e ∈ (handleRow s r).2, e.kind = EvKind.failedNotif) ∧
    (r.cols.length > 2 → seen s (cliOf r) = false →
      (handleRow s r).2 = [⟨.failedNotif, cliOf r⟩]) := by
  constructor
  · intro e he
    unfold handleRow at he
    split at he
    · split at he
      · cases he
      · unfold rowEvents at he
        rw [if_neg (by simp [h]), if_pos h] at he
        simp only [List.mem_cons, List.not_mem_nil, or_false] at he
        subst he
        rfl
    · cases he
  · intro h1 h2
    unfold handleRow
    rw [if_pos h1, if_neg (by simp [h2])]
    unfold rowEvents
    rw [if_neg (by simp [h]), if_pos h]

/-- Witness for C3 at a concrete row with a play button and a mixed-case
padded " fAiLeD " status cell. -/
theorem c3_failed_witness :
    (∀ e ∈ (handleRow [] rowFailedPlay).2, e.kind = EvKind.failedNotif) ∧
    (handleRow [] rowFailedPlay).2 = [⟨.failedNotif, cliOf rowFailedPlay⟩] :=
  ⟨(c3_failed_no_audio [] rowFailedPlay (by decide)).1,
    (c3_failed_no_audio [] rowFailedPlay (by decide)).2 (by decide) (by decide)⟩

/-- Claim C4 counterexample: at an outcome where the delivery of the
compressed file fails (`sendAudio false` appears in the trace), the
retraction of the detected alert and the deletion of both temporary
files still occur, because `sendAudioToTelegramGroup` catches its own
error and returns `false` instead of throwing — contradicting the claim
that a delivery failure aborts steps 4 and 5. -/
theorem c4_delivery_failure_counterexample :
    PEvent.sendAudio false ∈ processCallWorker ⟨true, true, false, true⟩ ∧
    PEvent.retractMsg ∈ processCallWorker ⟨true, true, false, true⟩ ∧
    PEvent.deleteRaw ∈ processCallWorker ⟨true, true, false, true⟩ ∧
    PEvent.deleteMp3 ∈ processCallWorker ⟨true, true, false, true⟩ := by
  decide

/-- Claim C4 (amended): in `processCallWorker` a failure of the download
or of the transcode throws inside the `try` and aborts all remaining
steps for that call only, with the error logged and never rethrown; but
a failure of the delivery step is caught inside
`sendAudioToTelegramGroup` and does not abort — once the transcode
completed, the retraction (when a notification id exists) and the
deletion of both temporary files occur whatever the delivery outcome. -/
theorem c4_pipeline_failure_scope (o : PipelineOutcome) :
    (o.downloadOk = false →
      processCallWorker o = [.fetchAttempt, .logError]) ∧
    (o.downloadOk = true → o.transcodeOk = false →
      processCallWorker o = [.fetchAttempt, .writeRaw, .logError]) ∧
    (o.downloadOk = true → o.transcodeOk = true →
      PEvent.sendAudio o.sendOk ∈ processCallWorker o ∧
      (o.hasNotifId = true → PEvent.retractMsg ∈ processCallWorker o) ∧
      PEvent.deleteRaw ∈ processCallWorker o ∧
      PEvent.deleteMp3 ∈ processCallWorker o) := by
  obtain ⟨d, t, sn, hn⟩ := o
  cases d <;> cases t <;> cases sn <;> cases hn <;> decide

/-- Witness for C4 (amended) at concrete outcomes: a transcode failure
aborts with only the fetch and raw write done, and a delivery failure
still reaches retraction and cleanup. -/
theorem c4_pipeline_witness :
    processCallWorker ⟨true, false, true, true⟩
      = [.fetchAttempt, .writeRaw, .logError] ∧
    PEvent.deleteRaw ∈ processCallWorker ⟨true, true, false, true⟩ :=
  ⟨(c4_pipeline_failure_scope ⟨true, false, true, true⟩).2.1 rfl rfl,
    ((c4_pipeline_failure_scope ⟨true, true, false, true⟩).2.2 rfl rfl).2.2.1⟩

/-- Claim C9: when the download succeeded (the raw WAV was written) and
the transcode then fails, `processCallWorker` deletes neither temporary
file — the raw recording stays on disk — and more generally the
deletions occur only when download and transcode both completed (the
catch block performs no cleanup). -/
theorem c9_transcode_failure_leaves_raw (o : PipelineOutcome) :
    (o.downloadOk = true → o.transcodeOk = false →
      PEvent.writeRaw ∈ processCallWorker o ∧
      PEvent.deleteRaw ∉ processCallWorker o ∧
      PEvent.deleteMp3 ∉ processCallWorker o) ∧
    (PEvent.deleteRaw ∈ processCallWorker o →
      o.downloadOk = true ∧ o.transcodeOk = true) := by
  obtain ⟨d, t, sn, hn⟩ := o
  cases d <;> cases t <;> cases sn <;> cases hn <;> decide

/-- Witness for C9 at a concrete transcode-failure outcome. -/
theorem c9_transcode_witness :
    PEvent.writeRaw ∈ processCallWorker ⟨true, false, false, false⟩ ∧
    PEvent.deleteRaw ∉ processCallWorker ⟨true, false, false, false⟩ ∧
    PEvent.deleteMp3 ∉ processCallWorker ⟨true, false, false, false⟩ :=
  (c9_transcode_failure_leaves_raw ⟨true, false, false, false⟩).1 rfl rfl

/-- Claim C5: when every login attempt fails, `loginToDashboard` returns
null with every opened browser closed again (the open/close counters
stay balanced), and with `max_retries = 2` and both attempts failing
after launch it performs exactly two launches and two closes — a fresh
browser per attempt — and returns null. -/
theorem c5_login_retry_no_leak :
    (∀ (fuel : Nat) (outs : List AttemptOutcome) (opens closes : Nat),
      (∀ x ∈ outs, x ≠ AttemptOutcome.success) →
      (loginAux fuel outs (opens, closes)).1 = none ∧
      ((loginAux fuel outs (opens, closes)).2.1 =
        (loginAux fuel outs (opens, closes)).2.2 ↔ opens = closes)) ∧
    loginToDashboard 2 [.failAfterLaunch, .failAfterLaunch]
      = (none, 2, 2) :=
  ⟨loginAux_all_fail, by decide⟩

/-- Witness for C5: the general part applied to the concrete two-failure
run. -/
theorem c5_login_witness :
    (loginAux 2 [.failAfterLaunch, .failAfterLaunch] (0, 0)).1 = none ∧
    ((loginAux 2 [.failAfterLaunch, .failAfterLaunch] (0, 0)).2.1 =
      (loginAux 2 [.failAfterLaunch, .failAfterLaunch] (0, 0)).2.2 ↔
      (0 : Nat) = 0) :=
  c5_login_retry_no_leak.1 2 [.failAfterLaunch, .failAfterLaunch] 0 0
    (by decide)

/-- Claim C6 counterexample: on input `"5 "` the source function returns
the input unchanged, `"5 "`, while the claim's description — no token
accepted, fall back to the whole *trimmed* text — prescribes `"5"`. -/
theorem c6_extract_country_counterexample :
    extractCountryFromTermination "5 ".toList = "5 ".toList ∧
    extractCountryClaimed "5 ".toList = "5".toList ∧
    extractCountryFromTermination "5 ".toList
      ≠ extractCountryClaimed "5 ".toList := by
  decide

/-- Claim C6 (amended): country extraction splits the input on the single
space character (not on general whitespace, and keeping empty tokens),
takes the leading tokens until one uppercases to MOBILE/FIXED or
contains a digit, joins the accepted tokens with a single space, and
falls back to the whole input text *untrimmed* when no tokens were
accepted; on `"UNITED KINGDOM MOBILE 07123"` it yields
`"UNITED KINGDOM"`. -/
theorem c6_extract_country_characterization :
    (∀ text : List Char,
      extractCountryFromTermination text =
        if ((splitOnChar ' ' text).takeWhile
            fun p => !isTerminator p).isEmpty
        then text
        else joinWith [' ']
          ((splitOnChar ' ' text).takeWhile fun p => !isTerminator p)) ∧
    extractCountryFromTermination "UNITED KINGDOM MOBILE 07123".toList =
      "UNITED KINGDOM".toList := by
  constructor
  · intro text
    simp only [extractCountryFromTermination]
    rw [collectParts_eq_takeWhile]
    cases h : (splitOnChar ' ' text).takeWhile (fun p => !isTerminator p) with
    | nil => simp [h]
    | cons a l => simp [h]
  · decide

/-- Claim C8 counterexample: `" A "` contains no digit and no token
case-insensitively equal to MOBILE or FIXED, yet the extraction returns
`" A "` — the input unchanged — not the trimmed input `"A"`. -/
theorem c8_no_terminator_counterexample :
    (∀ ch ∈ " A ".toList, ch.isDigit = false) ∧
    (∀ t ∈ wsTokens " A ".toList,
      t.map Char.toUpper ≠ "MOBILE".toList ∧
      t.map Char.toUpper ≠ "FIXED".toList) ∧
    extractCountryFromTermination " A ".toList ≠ trim " A ".toList := by
  decide

/-- Claim C8 (amended): on an input none of whose space-separated tokens
terminates the scan (no digit anywhere, no MOBILE/FIXED token), country
extraction returns the input exactly unchanged — hence it is idempotent
there — but the output is the raw input, not the trimmed input. -/
theorem c8_extract_country_id (text : List Char)
    (h : ∀ p ∈ splitOnChar ' ' text, isTerminator p = false) :
    extractCountryFromTermination text = text ∧
    extractCountryFromTermination (extractCountryFromTermination text) =
      extractCountryFromTermination text := by
  have h1 : extractCountryFromTermination text = text := by
    simp only [extractCountryFromTermination]
    rw [collectParts_of_no_terminator _ h]
    rcases hsp : splitOnChar ' ' text with _ | ⟨t, ts⟩
    · exact absurd hsp (splitOnChar_ne_nil ' ' text)
    · have hj := joinWith_splitOnChar ' ' text
      rw [hsp] at hj
      simpa using hj
  refine ⟨h1, ?_⟩
  rw [h1]
  exact h1

/-- Witness for C8 (amended) on a digit-free input with inner and outer
spaces. -/
theorem c8_extract_country_witness :
    extractCountryFromTermination " NEW ZEALAND ".toList
      = " NEW ZEALAND ".toList :=
  (c8_extract_country_id " NEW ZEALAND ".toList (by decide)).1

/-- Claim C7 counterexample: `" 1 "` has length 3 ≤ 7 but is not returned
unchanged — `maskNumber` trims it to `"1"` first. -/
theorem c7_mask_number_counterexample :
    (" 1 ".toList).length ≤ 7 ∧
    maskNumber " 1 ".toList ≠ " 1 ".toList := by
  decide

/-- Claim C7 (amended): `maskNumber` first trims its input; when the
trimmed string has length at most 7 it returns the trimmed string
(not the original input), and when it is longer it returns the trimmed
string's first 3 characters, then `"***"`, then its last 4 characters (a
length-4 suffix); `"12345678901"` gives `"123***8901"`. -/
theorem c7_mask_number_spec :
    (∀ s : List Char, (trim s).length ≤ 7 → maskNumber s = trim s) ∧
    (∀ s : List Char, 7 < (trim s).length →
      ∃ suf, suf <:+ trim s ∧ suf.length = 4 ∧
        maskNumber s = (trim s).take 3 ++ ['*', '*', '*'] ++ suf) ∧
    maskNumber "12345678901".toList = "123***8901".toList := by
  refine ⟨maskNumber_of_short, fun s h => ?_, by decide⟩
  refine ⟨(trim s).drop ((trim s).length - 4),
    List.drop_suffix _ _, ?_, maskNumber_of_long s h⟩
  rw [List.length_drop]
  omega

/-- Witness for C7 (amended) at concrete short and long inputs. -/
theorem c7_mask_number_witness :
    maskNumber " abc ".toList = trim " abc ".toList ∧
    ∃ suf, suf <:+ trim "123456789".toList ∧ suf.length = 4 ∧
      maskNumber "123456789".toList
        = (trim "123456789".toList).take 3 ++ ['*', '*', '*'] ++ suf :=
  ⟨c7_mask_number_spec.1 " abc ".toList (by decide),
    c7_mask_number_spec.2.1 "123456789".toList (by decide)⟩

/-- Claim C10: `maskNumber` trims before the length check and masking,
so it is invariant under trimming its argument, its result never has a
leading or trailing whitespace character, and an input whose trimmed
length is at most 7 comes back trimmed, not unchanged. -/
theorem c10_mask_number_trim_invariance (x : List Char) :
    maskNumber x = maskNumber (trim x) ∧
    (∀ c : Char, (maskNumber x).head? = some c → isWs c = false) ∧
    (∀ c : Char, (maskNumber x).getLast? = some c → isWs c = false) ∧
    ((trim x).length ≤ 7 → maskNumber x = trim x) :=
  ⟨maskNumber_eq_maskNumber_trim x, maskNumber_head?_not_ws x,
    maskNumber_getLast?_not_ws x, maskNumber_of_short x⟩

/-- Witness for C10 at a concrete whitespace-padded input. -/
theorem c10_mask_number_witness :
    maskNumber " 123 ".toList = maskNumber (trim " 123 ".toList) ∧
    isWs '1' = false ∧
    isWs '3' = false ∧
    maskNumber " 123 ".toList = trim " 123 ".toList :=
  ⟨(c10_mask_number_trim_invariance " 123 ".toList).1,
    (c10_mask_number_trim_invariance " 123 ".toList).2.1 '1' (by decide),
    (c10_mask_number_trim_invariance " 123 ".toList).2.2.1 '3' (by decide),
    (c10_mask_number_trim_invariance " 123 ".toList).2.2.2 (by decide)⟩
